import Mathlib

/-!
Shallow embedding of the proc-mounts crate (src/mounts.rs and src/swaps.rs).

Text is modelled as lists of byte values (`List Nat`, each entry a byte
0..255).  Rust `&str` values are UTF-8 byte sequences; every operation the
sources perform on them (splitting on the ASCII space, splitting on ASCII
whitespace runs, byte iteration in the escape decoder, decimal integer
parsing) is byte-level on ASCII, so the byte model is exact for them.
`io::Error::new(kind, msg)` values are modelled by `PError` below.
-/

set_option maxRecDepth 8192

namespace ProcMounts

/-- The two `std::io::ErrorKind` values the sources use. -/
inductive ErrKind
  | other
  | invalidData
deriving DecidableEq

/-- An `std::io::Error` as built by `Error::new(kind, msg)` in the sources:
an error kind plus the message text. -/
structure PError where
  kind : ErrKind
  msg : String
deriving DecidableEq

/-- Byte value of the backslash character. -/
def backslashByte : Nat := 92

/-- Is `b` the byte of an octal digit, i.e. one of the characters 0-7?
`u32::from_str_radix(&(b as char).to_string(), 8)` succeeds exactly on these
single-character strings. -/
def isOctalByte (b : Nat) : Bool := 48 ≤ b ∧ b ≤ 55

/-- Error produced by `Error::new(ErrorKind::Other, "truncated octal code")`
when the byte iterator ends inside an escape. -/
def truncatedEscapeErr : PError := ⟨ErrKind.other, "truncated octal code"⟩

/-- Error produced when `u32::from_str_radix` rejects a non-octal digit
character inside an escape (its `ParseIntError` message). -/
def invalidDigitErr : PError := ⟨ErrKind.other, "invalid digit found in string"⟩

/-- `MountList::parse_value` / `SwapList::parse_value` (textually identical in
src/mounts.rs lines 30-56 and src/swaps.rs lines 28-54): scan the field byte
by byte; a non-backslash byte is copied; a backslash consumes the next three
bytes as octal digits, accumulating `code = code*8 + digit` and pushing
`code as u8` (truncation modulo 256).  A missing byte yields the truncation
error, a non-octal byte yields the digit error. -/
def parse_value : List Nat → Except PError (List Nat)
  | [] => .ok []
  | b :: rest =>
    if b = backslashByte then
      match rest with
      | [] => .error truncatedEscapeErr
      | d1 :: r1 =>
        if isOctalByte d1 then
          match r1 with
          | [] => .error truncatedEscapeErr
          | d2 :: r2 =>
            if isOctalByte d2 then
              match r2 with
              | [] => .error truncatedEscapeErr
              | d3 :: r3 =>
                if isOctalByte d3 then
                  match parse_value r3 with
                  | .ok t => .ok ((((d1 - 48) * 8 + (d2 - 48)) * 8 + (d3 - 48)) % 256 :: t)
                  | .error e => .error e
                else .error invalidDigitErr
            else .error invalidDigitErr
        else .error invalidDigitErr
    else
      match parse_value rest with
      | .ok t => .ok (b :: t)
      | .error e => .error e

/-- Split a byte list at every byte satisfying `p`, keeping empty segments:
the behaviour of Rust `str::split` with a matching predicate. -/
def splitByteP (p : Nat → Bool) : List Nat → List (List Nat)
  | [] => [[]]
  | b :: rest =>
    if p b then [] :: splitByteP p rest
    else
      match splitByteP p rest with
      | [] => [[b]]
      | s :: ss => (b :: s) :: ss

/-- Rust `str::split(c)` for a single byte separator. -/
def splitByte (sep : Nat) (l : List Nat) : List (List Nat) :=
  splitByteP (fun b => b == sep) l

/-- Is `b` an ASCII whitespace byte?  `char::is_whitespace` restricted to the
ASCII range (space and the five control characters 9-13); the only
whitespace that occurs in the byte-level fields handled here. -/
def isWhitespaceByte (b : Nat) : Bool := b = 32 ∨ (9 ≤ b ∧ b ≤ 13)

/-- Rust `str::split_whitespace`: split on runs of whitespace, dropping all
empty segments (so no leading/trailing/doubled separators survive). -/
def splitWhitespace (l : List Nat) : List (List Nat) :=
  (splitByteP isWhitespaceByte l).filter (fun s => !s.isEmpty)

/-- Bytes of an ASCII string literal (every sample in the sources is ASCII,
where code point = byte). -/
def byteify (s : String) : List Nat := s.data.map Char.toNat

/-- Is `b` the byte of a decimal digit, and its value. -/
def decDigit? (b : Nat) : Option Nat :=
  if 48 ≤ b ∧ b ≤ 57 then some (b - 48) else none

/-- Accumulate decimal digits; fails on the first non-digit byte. -/
def decNatLoop : Nat → List Nat → Option Nat
  | acc, [] => some acc
  | acc, b :: rest =>
    match decDigit? b with
    | none => none
    | some d => decNatLoop (acc * 10 + d) rest

/-- A non-empty all-digit byte sequence read as a natural number. -/
def decNat? : List Nat → Option Nat
  | [] => none
  | l => decNatLoop 0 l

/-- Rust `FromStr` for an unsigned integer type with 2^w values: optional
leading plus sign, then one or more decimal digits, value below the bound
(overflow is an error). -/
def parseUnsigned (bound : Nat) (s : List Nat) : Option Nat :=
  let core :=
    match s with
    | 43 :: rest => decNat? rest
    | _ => decNat? s
  core.bind fun n => if n < bound then some n else none

/-- Rust `FromStr` for a signed integer type with range `[-bound, bound)`:
optional sign, then one or more decimal digits, overflow is an error. -/
def parseSigned (bound : Nat) (s : List Nat) : Option Int :=
  match s with
  | 43 :: rest => (decNat? rest).bind fun n => if n < bound then some (n : Int) else none
  | 45 :: rest => (decNat? rest).bind fun n => if n ≤ bound then some (-(n : Int)) else none
  | _ => (decNat? s).bind fun n => if n < bound then some (n : Int) else none

/-- `str::parse::<i32>()`. -/
def parseI32 (s : List Nat) : Option Int := parseSigned (2 ^ 31) s

/-- Is `b` a UTF-8 continuation byte (0x80-0xBF)? -/
def isContByte (b : Nat) : Bool := 128 ≤ b ∧ b ≤ 191

/-- Is the byte sequence valid UTF-8?  This is the check `OsStr::to_str`
performs in `SwapList::parse_line`'s inner `parse` helper. -/
def validUtf8 : List Nat → Bool
  | [] => true
  | b :: rest =>
    if b ≤ 127 then validUtf8 rest
    else if 194 ≤ b ∧ b ≤ 223 then
      match rest with
      | c1 :: r => isContByte c1 && validUtf8 r
      | [] => false
    else if b = 224 then
      match rest with
      | c1 :: c2 :: r => decide (160 ≤ c1 ∧ c1 ≤ 191) && isContByte c2 && validUtf8 r
      | _ => false
    else if (225 ≤ b ∧ b ≤ 236) ∨ b = 238 ∨ b = 239 then
      match rest with
      | c1 :: c2 :: r => isContByte c1 && isContByte c2 && validUtf8 r
      | _ => false
    else if b = 237 then
      match rest with
      | c1 :: c2 :: r => decide (128 ≤ c1 ∧ c1 ≤ 159) && isContByte c2 && validUtf8 r
      | _ => false
    else if b = 240 then
      match rest with
      | c1 :: c2 :: c3 :: r =>
        decide (144 ≤ c1 ∧ c1 ≤ 191) && isContByte c2 && isContByte c3 && validUtf8 r
      | _ => false
    else if 241 ≤ b ∧ b ≤ 243 then
      match rest with
      | c1 :: c2 :: c3 :: r => isContByte c1 && isContByte c2 && isContByte c3 && validUtf8 r
      | _ => false
    else if b = 244 then
      match rest with
      | c1 :: c2 :: c3 :: r =>
        decide (128 ≤ c1 ∧ c1 ≤ 143) && isContByte c2 && isContByte c3 && validUtf8 r
      | _ => false
    else false

deriving instance DecidableEq for Except

/-- `MountInfo` (src/mounts.rs lines 10-23).  `source` and `dest` are
`PathBuf`s holding raw bytes; `fstype` a `String`; `options` the
comma-separated tokens; `dump` and `pass` `i32` values. -/
structure MountInfo where
  source : List Nat
  dest : List Nat
  fstype : List Nat
  options : List (List Nat)
  dump : Int
  pass : Int
deriving DecidableEq

/-- `SwapInfo` (src/swaps.rs lines 9-21): `source` a `PathBuf`, `kind` an
`OsString`, `size`/`used` `usize` (64-bit), `priority` `isize` (64-bit). -/
structure SwapInfo where
  source : List Nat
  kind : List Nat
  size : Nat
  used : Nat
  priority : Int
deriving DecidableEq

/-- Error for a missing mount field: `Error::new(ErrorKind::InvalidData, msg)`
in `MountList::parse_line`. -/
def mountMissingErr (msg : String) : PError := ⟨ErrKind.invalidData, msg⟩

/-- `Error::new(ErrorKind::InvalidData, "dump value is not a number")`. -/
def dumpNotNumberErr : PError := ⟨ErrKind.invalidData, "dump value is not a number"⟩

/-- `Error::new(ErrorKind::InvalidData, "pass value is not a number")`. -/
def passNotNumberErr : PError := ⟨ErrKind.invalidData, "pass value is not a number"⟩

/-- The body of `MountList::parse_line` (src/mounts.rs lines 58-93) after the
`line.split(' ')` call, mirroring its evaluation order: six `parts.next()`
calls with `missing ...` errors, `dump`/`pass` parsed as `i32`, then — in the
final struct construction — `parse_value` on `source` and on `dest`, and
`options` split on commas. -/
def mountParseFields (parts : List (List Nat)) : Except PError MountInfo :=
  match parts with
  | [] => .error (mountMissingErr "missing source")
  | source :: r1 =>
    match r1 with
    | [] => .error (mountMissingErr "missing dest")
    | dest :: r2 =>
      match r2 with
      | [] => .error (mountMissingErr "missing type")
      | fstype :: r3 =>
        match r3 with
        | [] => .error (mountMissingErr "missing options")
        | options :: r4 =>
          match r4 with
          | [] => .error (mountMissingErr "missing dump")
          | dumpStr :: r5 =>
            match parseI32 dumpStr with
            | none => .error dumpNotNumberErr
            | some dump =>
              match r5 with
              | [] => .error (mountMissingErr "missing pass")
              | passStr :: _ =>
                match parseI32 passStr with
                | none => .error passNotNumberErr
                | some pass =>
                  match parse_value source with
                  | .error e => .error e
                  | .ok src =>
                    match parse_value dest with
                    | .error e => .error e
                    | .ok dst =>
                      .ok { source := src, dest := dst, fstype := fstype,
                            options := splitByte 44 options, dump := dump, pass := pass }

/-- `MountList::parse_line`: split the line on the single ASCII space and
extract the fields. -/
def mountParseLine (line : List Nat) : Except PError MountInfo :=
  mountParseFields (splitByte 32 line)

/-- Error for a missing swap field: `Error::new(ErrorKind::Other, msg)` from
the `next_value!` macro in `SwapList::parse_line`. -/
def swapMissingErr (msg : String) : PError := ⟨ErrKind.other, msg⟩

/-- `Error::new(ErrorKind::InvalidData, "/proc/swaps contains non-UTF8 entry")`. -/
def swapNonUtf8Err : PError := ⟨ErrKind.invalidData, "/proc/swaps contains non-UTF8 entry"⟩

/-- `Error::new(ErrorKind::InvalidData, "/proc/swaps contains invalid data")`. -/
def swapInvalidDataErr : PError := ⟨ErrKind.invalidData, "/proc/swaps contains invalid data"⟩

/-- The inner `parse::<F>` helper of `SwapList::parse_line` for `usize`:
`to_str` (UTF-8 check) then `str::parse`. -/
def swapParseNat (s : List Nat) : Except PError Nat :=
  if validUtf8 s then
    match parseUnsigned (2 ^ 64) s with
    | some n => .ok n
    | none => .error swapInvalidDataErr
  else .error swapNonUtf8Err

/-- The inner `parse::<F>` helper of `SwapList::parse_line` for `isize`. -/
def swapParseInt (s : List Nat) : Except PError Int :=
  if validUtf8 s then
    match parseSigned (2 ^ 63) s with
    | some n => .ok n
    | none => .error swapInvalidDataErr
  else .error swapNonUtf8Err

/-- The body of `SwapList::parse_line` (src/swaps.rs lines 56-86) after the
`line.split_whitespace()` call, mirroring its evaluation order: each field is
obtained by `next_value!` (a `parts.next()` with a `Missing ...` error
followed immediately by `parse_value`), and the three numeric fields then go
through the `parse` helper. -/
def swapParseFields (parts : List (List Nat)) : Except PError SwapInfo :=
  match parts with
  | [] => .error (swapMissingErr "Missing source")
  | p1 :: r1 =>
    match parse_value p1 with
    | .error e => .error e
    | .ok source =>
      match r1 with
      | [] => .error (swapMissingErr "Missing kind")
      | p2 :: r2 =>
        match parse_value p2 with
        | .error e => .error e
        | .ok kind =>
          match r2 with
          | [] => .error (swapMissingErr "Missing size")
          | p3 :: r3 =>
            match parse_value p3 with
            | .error e => .error e
            | .ok sizeStr =>
              match swapParseNat sizeStr with
              | .error e => .error e
              | .ok size =>
                match r3 with
                | [] => .error (swapMissingErr "Missing used")
                | p4 :: r4 =>
                  match parse_value p4 with
                  | .error e => .error e
                  | .ok usedStr =>
                    match swapParseNat usedStr with
                    | .error e => .error e
                    | .ok used =>
                      match r4 with
                      | [] => .error (swapMissingErr "Missing priority")
                      | p5 :: _ =>
                        match parse_value p5 with
                        | .error e => .error e
                        | .ok prioStr =>
                          match swapParseInt prioStr with
                          | .error e => .error e
                          | .ok priority =>
                            .ok { source := source, kind := kind, size := size,
                                  used := used, priority := priority }

/-- `SwapList::parse_line`: split the line on whitespace runs and extract the
fields. -/
def swapParseLine (line : List Nat) : Except PError SwapInfo :=
  swapParseFields (splitWhitespace line)

/-- `lines.map(parse_line).collect::<Result<Vec<_>>>()`: parse each line in
order, stopping at the first error (the shape of both `MountList::parse_from`
and `SwapList::parse_from`). -/
def collectResults {α : Type} (f : List Nat → Except PError α) :
    List (List Nat) → Except PError (List α)
  | [] => .ok []
  | l :: ls =>
    match f l with
    | .error e => .error e
    | .ok r =>
      match collectResults f ls with
      | .error e => .error e
      | .ok rs => .ok (r :: rs)

/-- `MountList::parse_from` (src/mounts.rs lines 95-99). -/
def mountParseFrom (lines : List (List Nat)) : Except PError (List MountInfo) :=
  collectResults mountParseLine lines

/-- `SwapList::parse_from` (src/swaps.rs lines 88-92). -/
def swapParseFrom (lines : List (List Nat)) : Except PError (List SwapInfo) :=
  collectResults swapParseLine lines

/-- A component of a `std::path::Path` on Unix (no Windows prefixes). -/
inductive Component
  | rootDir
  | curDir
  | parentDir
  | normal (name : List Nat)
deriving DecidableEq

/-- The non-empty slash-separated chunks of a path's bytes. -/
def pathChunks (p : List Nat) : List (List Nat) :=
  (splitByteP (fun b => b == 47) p).filter (fun c => !c.isEmpty)

/-- `Path::components()` on Unix: a leading root when the bytes start with a
slash; a leading `CurDir` when there is no root and the first chunk is `.`;
then the chunks with empty and `.` chunks normalized away, `..` mapped to
`ParentDir`.  This is the std library's documented normalization (repeated
separators collapse, a trailing separator is dropped). -/
def components (p : List Nat) : List Component :=
  (if p.head? = some 47 then [Component.rootDir] else []) ++
    (if p.head? ≠ some 47 ∧ (pathChunks p).head? = some [46] then [Component.curDir] else []) ++
    ((pathChunks p).filter (fun c => c ≠ [46])).map
      (fun c => if c = [46, 46] then Component.parentDir else Component.normal c)

/-- Rust `Path`/`PathBuf` equality (`PartialEq for Path` in std compares
`self.components()` with `other.components()`); this is the `==` used by
`get_mount_by_dest`, `get_mount_by_source` and `get_swapped`. -/
def pathEq (a b : List Nat) : Bool := decide (components a = components b)

/-- `MountList::get_mount_by_dest` (src/mounts.rs lines 114-118): first entry
whose `dest` equals the path. -/
def get_mount_by_dest (l : List MountInfo) (path : List Nat) : Option MountInfo :=
  l.find? (fun m => pathEq m.dest path)

/-- `MountList::get_mount_by_source` (src/mounts.rs lines 121-125). -/
def get_mount_by_source (l : List MountInfo) (path : List Nat) : Option MountInfo :=
  l.find? (fun m => pathEq m.source path)

/-- `SwapList::get_swapped` (src/swaps.rs lines 106-108): is any entry's
`source` equal to the path? -/
def get_swapped (l : List SwapInfo) (path : List Nat) : Bool :=
  l.any (fun m => pathEq m.source path)

/-- The filter of `MountList::starts_with` (src/mounts.rs lines 137-150):
`input.len() >= path.len() && &input[..path.len()] == path` on the field
selected by `func`. -/
def startsWithFilter (path : List Nat) (input : List Nat) : Bool :=
  decide (path.length ≤ input.length) && decide (input.take path.length = path)

/-- `MountList::source_starts_with` (src/mounts.rs lines 127-130), with the
lazy iterator materialized as the list it yields. -/
def source_starts_with (l : List MountInfo) (path : List Nat) : List MountInfo :=
  l.filter (fun m => startsWithFilter path m.source)

/-- `MountList::destination_starts_with` (src/mounts.rs lines 132-135). -/
def destination_starts_with (l : List MountInfo) (path : List Nat) : List MountInfo :=
  l.filter (fun m => startsWithFilter path m.dest)

/-- The 8-line sample mount table from the tests (src/mounts.rs `SAMPLE`)
and section 8 of the specification. -/
def sampleMountLines : List (List Nat) :=
  [byteify "sysfs /sys sysfs rw,nosuid,nodev,noexec,relatime 0 0",
   byteify "proc /proc proc rw,nosuid,nodev,noexec,relatime 0 0",
   byteify "udev /dev devtmpfs rw,nosuid,relatime,size=16420480k,nr_inodes=4105120,mode=755 0 0",
   byteify "tmpfs /run tmpfs rw,nosuid,noexec,relatime,size=3291052k,mode=755 0 0",
   byteify "/dev/sda2 / ext4 rw,noatime,errors=remount-ro,data=ordered 0 0",
   byteify "fusectl /sys/fs/fuse/connections fusectl rw,relatime 0 0",
   byteify "/dev/sda1 /boot/efi vfat rw,relatime,fmask=0077,dmask=0077,codepage=437,iocharset=iso8859-1,shortname=mixed,errors=remount-ro 0 0",
   byteify "/dev/sda6 /mnt/data ext4 rw,noatime,data=ordered 0 0"]

example : parse_value (byteify "hello") = .ok (byteify "hello") := by decide
example : parse_value (byteify "\\040") = .ok [32] := by decide
example : parse_value (byteify "\\777") = .ok [255] := by decide
example : parse_value (byteify "\\40") = .error truncatedEscapeErr := by decide
example : parse_value (byteify "\\08x") = .error invalidDigitErr := by decide
example : splitByte 32 (byteify "a b  c") = [byteify "a", byteify "b", [], byteify "c"] := by decide
example : splitWhitespace (byteify " a b  c ") = [byteify "a", byteify "b", byteify "c"] := by decide
example : parseI32 (byteify "-42") = some (-42) := by decide
example : parseUnsigned (2 ^ 64) (byteify "8388600") = some 8388600 := by decide

example :
    swapParseLine (byteify "/dev/sda5 partition 8388600 0 -2") =
      .ok ⟨byteify "/dev/sda5", byteify "partition", 8388600, 0, -2⟩ := by decide

example :
    mountParseLine (byteify "sysfs /sys sysfs rw,relatime 0 0") =
      .ok ⟨byteify "sysfs", byteify "/sys", byteify "sysfs",
           [byteify "rw", byteify "relatime"], 0, 0⟩ := by decide

example : components (byteify "/run/") = components (byteify "/run") := by decide
example : components (byteify "a//b") = components (byteify "a/b") := by decide
example : components (byteify "./a") ≠ components (byteify "a") := by decide
example : components (byteify "/a") ≠ components (byteify "/ab") := by decide
example : pathEq (byteify "/run") (byteify "/run/") = true := by decide
example :
    mountParseLine (byteify "a b c d 0 0 extra") =
      .ok ⟨byteify "a", byteify "b", byteify "c", [byteify "d"], 0, 0⟩ := by decide
example : mountParseLine (byteify "a b c d x") = .error dumpNotNumberErr := by decide
example : swapParseLine (byteify "a b c") = .error swapInvalidDataErr := by decide
example : swapParseLine (byteify "a b 1x \\9 -2") = .error swapInvalidDataErr := by decide
example : swapParseLine (byteify "a b \\070 0 -2") =
    .ok ⟨byteify "a", byteify "b", 8, 0, -2⟩ := by decide

/-! Structural lemmas about the escape decoder. -/

theorem parse_value_no_backslash :
    ∀ v : List Nat, backslashByte ∉ v → parse_value v = .ok v := by
  intro v
  induction v with
  | nil => intro _; rfl
  | cons b rest ih =>
    intro hb
    have hbne : ¬b = backslashByte := fun h => hb (h ▸ List.mem_cons_self b rest)
    have hrest : backslashByte ∉ rest := fun h => hb (List.mem_cons_of_mem b h)
    rw [parse_value.eq_def]
    simp [hbne, ih hrest]

theorem parse_value_error_kind :
    ∀ v : List Nat, ∀ e, parse_value v = .error e →
      e = truncatedEscapeErr ∨ e = invalidDigitErr := by
  intro v
  induction v using parse_value.induct with
  | case1 => intro e h; rw [parse_value.eq_def] at h; simp at h
  | case2 =>
    intro e h; rw [parse_value.eq_def] at h; simp at h; exact Or.inl h.symm
  | case3 d1 h1 =>
    intro e h; rw [parse_value.eq_def] at h; simp [h1] at h; exact Or.inl h.symm
  | case4 d1 h1 d2 h2 =>
    intro e h; rw [parse_value.eq_def] at h; simp [h1, h2] at h; exact Or.inl h.symm
  | case5 d1 h1 d2 h2 d3 r3 h3 t ht ih =>
    intro e h; rw [parse_value.eq_def] at h; simp [h1, h2, h3, ht] at h
  | case6 d1 h1 d2 h2 d3 r3 h3 e0 he ih =>
    intro e h
    rw [parse_value.eq_def] at h
    simp [h1, h2, h3, he] at h
    exact h ▸ ih e0 he
  | case7 d1 h1 d2 h2 d3 r3 h3 =>
    intro e h; rw [parse_value.eq_def] at h; simp [h1, h2, h3] at h; exact Or.inr h.symm
  | case8 d1 h1 d2 r2 h2 =>
    intro e h; rw [parse_value.eq_def] at h; simp [h1, h2] at h; exact Or.inr h.symm
  | case9 d1 r1 h1 =>
    intro e h; rw [parse_value.eq_def] at h; simp [h1] at h; exact Or.inr h.symm
  | case10 b r3 hb t ht ih =>
    intro e hh; rw [parse_value.eq_def] at hh; simp [hb, ht] at hh
  | case11 b r3 hb e0 he ih =>
    intro e h
    rw [parse_value.eq_def] at h
    simp [hb, he] at h
    exact h ▸ ih e0 he

theorem parse_value_ok_backslash :
    ∀ v : List Nat, ∀ r, parse_value v = .ok r →
      ∀ u w, v = u ++ backslashByte :: w →
        3 ≤ w.length ∧ ∀ d ∈ w.take 3, isOctalByte d = true := by
  intro v
  induction v using parse_value.induct with
  | case1 =>
    intro r h u w heq
    exact absurd heq (by simp)
  | case2 => intro r h; rw [parse_value.eq_def] at h; simp at h
  | case3 d1 h1 => intro r h; rw [parse_value.eq_def] at h; simp [h1] at h
  | case4 d1 h1 d2 h2 => intro r h; rw [parse_value.eq_def] at h; simp [h1, h2] at h
  | case5 d1 h1 d2 h2 d3 r3 h3 t ht ih =>
    intro r h u w heq
    have hoct92 : isOctalByte backslashByte = false := by decide
    rcases u with _ | ⟨x, _ | ⟨y, _ | ⟨z, _ | ⟨q, u5⟩⟩⟩⟩
    · simp only [List.nil_append, List.cons.injEq] at heq
      obtain ⟨-, hw⟩ := heq
      subst hw
      refine ⟨by simp, ?_⟩
      intro d hd
      simp [List.take] at hd
      rcases hd with h | h | h <;> subst h <;> assumption
    · simp only [List.cons_append, List.nil_append, List.cons.injEq] at heq
      obtain ⟨-, hd1, -⟩ := heq
      rw [hd1] at h1; rw [hoct92] at h1; cases h1
    · simp only [List.cons_append, List.nil_append, List.cons.injEq] at heq
      obtain ⟨-, -, hd2, -⟩ := heq
      rw [hd2] at h2; rw [hoct92] at h2; cases h2
    · simp only [List.cons_append, List.nil_append, List.cons.injEq] at heq
      obtain ⟨-, -, -, hd3, -⟩ := heq
      rw [hd3] at h3; rw [hoct92] at h3; cases h3
    · simp only [List.cons_append, List.nil_append, List.cons.injEq] at heq
      obtain ⟨-, -, -, -, hr3⟩ := heq
      exact ih t ht u5 w hr3
  | case6 d1 h1 d2 h2 d3 r3 h3 e0 he ih =>
    intro r h; rw [parse_value.eq_def] at h; simp [h1, h2, h3, he] at h
  | case7 d1 h1 d2 h2 d3 r3 h3 =>
    intro r h; rw [parse_value.eq_def] at h; simp [h1, h2, h3] at h
  | case8 d1 h1 d2 r2 h2 =>
    intro r h; rw [parse_value.eq_def] at h; simp [h1, h2] at h
  | case9 d1 r1 h1 =>
    intro r h; rw [parse_value.eq_def] at h; simp [h1] at h
  | case10 b r3 hb t ht ih =>
    intro r h u w heq
    rcases u with _ | ⟨x, u2⟩
    · simp only [List.nil_append, List.cons.injEq] at heq
      exact absurd heq.1 hb
    · simp only [List.cons_append, List.cons.injEq] at heq
      exact ih t ht u2 w heq.2
  | case11 b r3 hb e0 he ih =>
    intro r h; rw [parse_value.eq_def] at h; simp [hb, he] at h

/-- C4: For every input field the escape decoder fails, with one of the two
malformed-escape errors (truncated escape / invalid octal digit), whenever
some backslash in the field is followed by fewer than 3 remaining bytes or by
a non-octal byte among its 3 followers; on fields without a backslash it
never fails (returning the field unchanged). -/
theorem claim4_malformed_escape :
    (∀ v : List Nat, backslashByte ∉ v → parse_value v = .ok v) ∧
      (∀ u w : List Nat,
        (w.length < 3 ∨ ∃ d ∈ w.take 3, isOctalByte d = false) →
          ∃ e, parse_value (u ++ backslashByte :: w) = .error e ∧
            (e = truncatedEscapeErr ∨ e = invalidDigitErr)) := by
  refine ⟨parse_value_no_backslash, ?_⟩
  intro u w hbad
  cases hv : parse_value (u ++ backslashByte :: w) with
  | error e => exact ⟨e, rfl, parse_value_error_kind _ e hv⟩
  | ok r =>
    exfalso
    have hgood := parse_value_ok_backslash _ r hv u w rfl
    rcases hbad with hlen | ⟨d, hd, hdval⟩
    · omega
    · rw [hgood.2 d hd] at hdval; cases hdval

/-- Witness for C4 at concrete inputs: the backslash-free field `abc` decodes
to itself, and the field `a\8...` fails with a malformed-escape error. -/
theorem claim4_malformed_escape_witness :
    parse_value (byteify "abc") = .ok (byteify "abc") ∧
      ∃ e, parse_value ([97] ++ backslashByte :: [56, 48, 48]) = .error e ∧
        (e = truncatedEscapeErr ∨ e = invalidDigitErr) := by
  constructor
  · exact claim4_malformed_escape.1 (byteify "abc") (by decide)
  · exact claim4_malformed_escape.2 [97] [56, 48, 48] (by decide)

/-! Lemmas about the all-or-nothing collection of line results. -/

theorem collectResults_ok_of_all {α : Type} (f : List Nat → Except PError α) :
    ∀ lines : List (List Nat),
      (∀ l ∈ lines, ∃ r, f l = .ok r) →
        ∃ rs, collectResults f lines = .ok rs ∧
          List.Forall₂ (fun l r => f l = .ok r) lines rs := by
  intro lines
  induction lines with
  | nil => intro _; exact ⟨[], rfl, List.Forall₂.nil⟩
  | cons l ls ih =>
    intro hall
    obtain ⟨r, hr⟩ := hall l (List.mem_cons_self l ls)
    obtain ⟨rs, hrs, hfa⟩ := ih (fun x hx => hall x (List.mem_cons_of_mem l hx))
    refine ⟨r :: rs, ?_, List.Forall₂.cons hr hfa⟩
    simp [collectResults, hr, hrs]

theorem collectResults_first_error {α : Type} (f : List Nat → Except PError α) :
    ∀ pre : List (List Nat), ∀ bad post e,
      (∀ x ∈ pre, ∃ r, f x = .ok r) → f bad = .error e →
        collectResults f (pre ++ bad :: post) = .error e := by
  intro pre
  induction pre with
  | nil =>
    intro bad post e _ hbad
    simp [collectResults, hbad]
  | cons x pre' ih =>
    intro bad post e hall hbad
    obtain ⟨r, hr⟩ := hall x (List.mem_cons_self x pre')
    have := ih bad post e (fun y hy => hall y (List.mem_cons_of_mem x hy)) hbad
    simp [collectResults, hr, this]

/-- C1: Table construction is all-or-nothing, for both tables: when every
line parses, `parse_from` returns the parsed records in input order
(`Forall₂` ties line i to record i); when some line fails, `parse_from`
returns the error of the first failing line and no table value. -/
theorem claim1_all_or_nothing :
    (∀ lines : List (List Nat),
        (∀ l ∈ lines, ∃ r, mountParseLine l = .ok r) →
          ∃ rs, mountParseFrom lines = .ok rs ∧
            List.Forall₂ (fun l r => mountParseLine l = .ok r) lines rs) ∧
      (∀ pre bad post e,
        (∀ x ∈ pre, ∃ r, mountParseLine x = .ok r) → mountParseLine bad = .error e →
          mountParseFrom (pre ++ bad :: post) = .error e) ∧
      (∀ lines : List (List Nat),
        (∀ l ∈ lines, ∃ r, swapParseLine l = .ok r) →
          ∃ rs, swapParseFrom lines = .ok rs ∧
            List.Forall₂ (fun l r => swapParseLine l = .ok r) lines rs) ∧
      (∀ pre bad post e,
        (∀ x ∈ pre, ∃ r, swapParseLine x = .ok r) → swapParseLine bad = .error e →
          swapParseFrom (pre ++ bad :: post) = .error e) :=
  ⟨collectResults_ok_of_all mountParseLine,
   fun pre bad post e h hb => collectResults_first_error mountParseLine pre bad post e h hb,
   collectResults_ok_of_all swapParseLine,
   fun pre bad post e h hb => collectResults_first_error swapParseLine pre bad post e h hb⟩

/-- Witness for C1 at concrete inputs: a good line followed by a failing line
aborts mount construction with the failing line's error. -/
theorem claim1_all_or_nothing_witness :
    mountParseFrom [byteify "sysfs /sys sysfs rw 0 0", byteify "a b"] =
      .error (mountMissingErr "missing type") := by
  have h := claim1_all_or_nothing.2.1 [byteify "sysfs /sys sysfs rw 0 0"]
    (byteify "a b") [] (mountMissingErr "missing type")
  exact h (by intro x hx; simp at hx; subst hx
              exact ⟨⟨byteify "sysfs", byteify "/sys", byteify "sysfs", [byteify "rw"], 0, 0⟩,
                by decide⟩)
    (by decide)

/-! Field-arity lemmas for the two line parsers. -/

theorem mountParseFields_arity :
    ∀ parts : List (List Nat), ∀ m, mountParseFields parts = .ok m → 6 ≤ parts.length := by
  intro parts m h
  rcases parts with _ | ⟨f1, _ | ⟨f2, _ | ⟨f3, _ | ⟨f4, _ | ⟨f5, _ | ⟨f6, rest⟩⟩⟩⟩⟩⟩
  · simp [mountParseFields] at h
  · simp [mountParseFields] at h
  · simp [mountParseFields] at h
  · simp [mountParseFields] at h
  · simp [mountParseFields] at h
  · rcases hp : parseI32 f5 with _ | n <;> simp [mountParseFields, hp] at h
  · simp

theorem swapParseFields_arity :
    ∀ parts : List (List Nat), ∀ s, swapParseFields parts = .ok s → 5 ≤ parts.length := by
  intro parts s h
  rcases parts with _ | ⟨f1, _ | ⟨f2, _ | ⟨f3, _ | ⟨f4, _ | ⟨f5, rest⟩⟩⟩⟩⟩
  · simp [swapParseFields] at h
  · rcases h1 : parse_value f1 with e | v1 <;> simp [swapParseFields, h1] at h
  · rcases h1 : parse_value f1 with e | v1 <;>
      rcases h2 : parse_value f2 with e2 | v2 <;>
        simp [swapParseFields, h1, h2] at h
  · rcases h1 : parse_value f1 with e | v1
    · simp [swapParseFields, h1] at h
    · rcases h2 : parse_value f2 with e | v2
      · simp [swapParseFields, h1, h2] at h
      · rcases h3 : parse_value f3 with e | v3
        · simp [swapParseFields, h1, h2, h3] at h
        · rcases h3n : swapParseNat v3 with e | n3 <;>
            simp [swapParseFields, h1, h2, h3, h3n] at h
  · rcases h1 : parse_value f1 with e | v1
    · simp [swapParseFields, h1] at h
    · rcases h2 : parse_value f2 with e | v2
      · simp [swapParseFields, h1, h2] at h
      · rcases h3 : parse_value f3 with e | v3
        · simp [swapParseFields, h1, h2, h3] at h
        · rcases h3n : swapParseNat v3 with e | n3
          · simp [swapParseFields, h1, h2, h3, h3n] at h
          · rcases h4 : parse_value f4 with e | v4
            · simp [swapParseFields, h1, h2, h3, h3n, h4] at h
            · rcases h4n : swapParseNat v4 with e | n4 <;>
                simp [swapParseFields, h1, h2, h3, h3n, h4, h4n] at h
  · simp

/-- C2 counterexample: the mount line parser accepts a 7-field line (extra
fields are silently ignored), so it does not succeed *only* on exactly
6 fields; moreover a 5-field mount line whose fifth field is not a number
fails with the invalid-dump error rather than a MissingField error, and a
3-field swap line fails with the invalid-data error rather than a
MissingField error. -/
theorem claim2_field_arity_counterexample :
    mountParseLine (byteify "a b c d 0 0 extra") =
        .ok ⟨byteify "a", byteify "b", byteify "c", [byteify "d"], 0, 0⟩ ∧
      (splitByte 32 (byteify "a b c d 0 0 extra")).length = 7 ∧
      mountParseLine (byteify "a b c d x") = .error dumpNotNumberErr ∧
      dumpNotNumberErr.msg ≠ "missing pass" ∧
      swapParseLine (byteify "a b c") = .error swapInvalidDataErr ∧
      swapInvalidDataErr.kind ≠ ErrKind.other := by
  refine ⟨by decide, by decide, by decide, by decide, by decide, by decide⟩

/-- C2 (amended): The mount line parser succeeds only on lines that split
into at least 6 fields on the single ASCII space character (the first 6 are
read, extras ignored); every mount line with fewer than 6 fields fails —
with MissingField naming the first absent field, except that a 5-field line
whose fifth field does not parse as an i32 fails with the invalid-dump
error; every swap line with fewer than 5 whitespace-run-separated fields
fails — with MissingField naming the first absent field provided each
present field decodes and each present numeric field converts. -/
theorem claim2_field_arity_amended :
    (∀ line : List Nat, ∀ m, mountParseLine line = .ok m → 6 ≤ (splitByte 32 line).length) ∧
      (∀ f1 f2 f3 f4 f5 : List Nat,
        mountParseFields [] = .error (mountMissingErr "missing source") ∧
          mountParseFields [f1] = .error (mountMissingErr "missing dest") ∧
          mountParseFields [f1, f2] = .error (mountMissingErr "missing type") ∧
          mountParseFields [f1, f2, f3] = .error (mountMissingErr "missing options") ∧
          mountParseFields [f1, f2, f3, f4] = .error (mountMissingErr "missing dump") ∧
          ((∃ n, parseI32 f5 = some n) →
            mountParseFields [f1, f2, f3, f4, f5] = .error (mountMissingErr "missing pass")) ∧
          (parseI32 f5 = none →
            mountParseFields [f1, f2, f3, f4, f5] = .error dumpNotNumberErr)) ∧
      (∀ line : List Nat, ∀ s, swapParseLine line = .ok s → 5 ≤ (splitWhitespace line).length) ∧
      (∀ f1 f2 f3 f4 : List Nat,
        swapParseFields [] = .error (swapMissingErr "Missing source") ∧
          ((∃ v, parse_value f1 = .ok v) →
            swapParseFields [f1] = .error (swapMissingErr "Missing kind")) ∧
          ((∃ v, parse_value f1 = .ok v) → (∃ v, parse_value f2 = .ok v) →
            swapParseFields [f1, f2] = .error (swapMissingErr "Missing size")) ∧
          ((∃ v, parse_value f1 = .ok v) → (∃ v, parse_value f2 = .ok v) →
            (∃ v n, parse_value f3 = .ok v ∧ swapParseNat v = .ok n) →
            swapParseFields [f1, f2, f3] = .error (swapMissingErr "Missing used")) ∧
          ((∃ v, parse_value f1 = .ok v) → (∃ v, parse_value f2 = .ok v) →
            (∃ v n, parse_value f3 = .ok v ∧ swapParseNat v = .ok n) →
            (∃ v n, parse_value f4 = .ok v ∧ swapParseNat v = .ok n) →
            swapParseFields [f1, f2, f3, f4] = .error (swapMissingErr "Missing priority"))) := by
  refine ⟨?_, ?_, ?_, ?_⟩
  · intro line m h
    exact mountParseFields_arity _ m h
  · intro f1 f2 f3 f4 f5
    refine ⟨rfl, rfl, rfl, rfl, rfl, ?_, ?_⟩
    · rintro ⟨n, hn⟩
      simp [mountParseFields, hn]
    · intro hn
      simp [mountParseFields, hn]
  · intro line s h
    exact swapParseFields_arity _ s h
  · intro f1 f2 f3 f4
    refine ⟨rfl, ?_, ?_, ?_, ?_⟩
    · rintro ⟨v1, h1⟩
      simp [swapParseFields, h1]
    · rintro ⟨v1, h1⟩ ⟨v2, h2⟩
      simp [swapParseFields, h1, h2]
    · rintro ⟨v1, h1⟩ ⟨v2, h2⟩ ⟨v3, n3, h3, h3n⟩
      simp [swapParseFields, h1, h2, h3, h3n]
    · rintro ⟨v1, h1⟩ ⟨v2, h2⟩ ⟨v3, n3, h3, h3n⟩ ⟨v4, n4, h4, h4n⟩
      simp [swapParseFields, h1, h2, h3, h3n, h4, h4n]

/-- Witness for the amended C2 at concrete inputs: a successfully parsed
line has at least 6 fields, and a concrete 5-field line with numeric fifth
field fails with `missing pass`. -/
theorem claim2_field_arity_amended_witness :
    6 ≤ (splitByte 32 (byteify "a b c d 0 0")).length ∧
      mountParseFields [byteify "a", byteify "b", byteify "c", byteify "d", byteify "0"] =
        .error (mountMissingErr "missing pass") := by
  constructor
  · exact claim2_field_arity_amended.1 (byteify "a b c d 0 0")
      ⟨byteify "a", byteify "b", byteify "c", [byteify "d"], 0, 0⟩ (by decide)
  · exact (claim2_field_arity_amended.2.1 (byteify "a") (byteify "b") (byteify "c")
      (byteify "d") (byteify "0")).2.2.2.2.2.1 ⟨0, by decide⟩

/-- C3: Octal-escape round-trip: for every byte b in 0..255, decoding the
four-character field consisting of a backslash followed by the zero-padded
3-digit base-8 representation of b yields exactly the single byte b
(the digits being combined as value = value*8 + digit). -/
theorem claim3_octal_roundtrip :
    ∀ b : Fin 256,
      parse_value [92, 48 + b.val / 64, 48 + b.val / 8 % 8, 48 + b.val % 8] =
        .ok [b.val] := by decide

/-- C9: Every escape of a backslash followed by three valid octal digits
decodes successfully, to the encoded value reduced modulo 256; in particular
an out-of-range escape is never rejected: `\777` (511) yields byte 255 and
`\400` (256) yields byte 0. -/
theorem claim9_escape_mod256 :
    (∀ a b c : Fin 8,
        parse_value [92, 48 + a.val, 48 + b.val, 48 + c.val] =
          .ok [(a.val * 64 + b.val * 8 + c.val) % 256]) ∧
      parse_value (byteify "\\777") = .ok [255] ∧
      parse_value (byteify "\\400") = .ok [0] := by
  refine ⟨by decide, by decide, by decide⟩

/-- C7: Parsing the single post-header swap line
`/dev/sda5 partition 8388600 0 -2` yields exactly one entry with
source=/dev/sda5, kind=partition, size=8388600, used=0, priority=-2; on the
resulting table `get_swapped "/dev/sda5"` is true and
`get_swapped "/dev/sda1"` is false. -/
theorem claim7_swap_sample :
    swapParseFrom [byteify "/dev/sda5 partition 8388600 0 -2"] =
        .ok [⟨byteify "/dev/sda5", byteify "partition", 8388600, 0, -2⟩] ∧
      get_swapped [⟨byteify "/dev/sda5", byteify "partition", 8388600, 0, -2⟩]
          (byteify "/dev/sda5") = true ∧
      get_swapped [⟨byteify "/dev/sda5", byteify "partition", 8388600, 0, -2⟩]
          (byteify "/dev/sda1") = false := by
  refine ⟨by decide, by decide, by decide⟩

/-! First-match characterization of `List.find?`, and path-component lemmas. -/

theorem find?_first_match {α : Type} (q : α → Bool) :
    ∀ l : List α, ∀ x, l.find? q = some x →
      q x = true ∧ ∃ pre post, l = pre ++ x :: post ∧ ∀ y ∈ pre, q y = false := by
  intro l
  induction l with
  | nil => intro x h; cases h
  | cons a l ih =>
    intro x h
    by_cases hqa : q a = true
    · rw [List.find?_cons_of_pos _ hqa] at h
      cases h
      exact ⟨hqa, [], l, rfl, by simp⟩
    · have hqa' : q a = false := by simpa using hqa
      rw [List.find?_cons_of_neg _ (by simp [hqa'])] at h
      obtain ⟨hq, pre, post, heq, hpre⟩ := ih x h
      refine ⟨hq, a :: pre, post, by rw [heq]; rfl, ?_⟩
      intro y hy
      rcases List.mem_cons.mp hy with rfl | hy'
      · exact hqa'
      · exact hpre y hy'

theorem splitByteP_ne_nil (p : Nat → Bool) : ∀ l : List Nat, splitByteP p l ≠ [] := by
  intro l
  induction l with
  | nil => simp [splitByteP]
  | cons b rest ih =>
    by_cases hb : p b
    · simp [splitByteP, hb]
    · rcases hs : splitByteP p rest with _ | ⟨s, ss⟩
      · exact absurd hs ih
      · simp [splitByteP, hb, hs]

theorem splitByteP_append_sep (p : Nat → Bool) :
    ∀ u v : List Nat, ∀ s : Nat, p s = true →
      splitByteP p (u ++ s :: v) = splitByteP p u ++ splitByteP p v := by
  intro u
  induction u with
  | nil =>
    intro v s hs
    simp [splitByteP, hs]
  | cons b u2 ih =>
    intro v s hs
    rw [List.cons_append, splitByteP.eq_def, splitByteP.eq_def]
    by_cases hb : p b
    · simp only [hb, if_true]
      rw [ih v s hs]
      rfl
    · simp only [hb, if_false, Bool.false_eq_true]
      rw [ih v s hs]
      rcases hu : splitByteP p u2 with _ | ⟨x, xs⟩
      · exact absurd hu (splitByteP_ne_nil p u2)
      · simp

theorem pathChunks_append_sep :
    ∀ u v : List Nat, pathChunks (u ++ 47 :: v) = pathChunks u ++ pathChunks v := by
  intro u v
  unfold pathChunks
  rw [splitByteP_append_sep _ u v 47 (by decide), List.filter_append]

theorem pathChunks_cons_sep : ∀ v : List Nat, pathChunks (47 :: v) = pathChunks v := by
  intro v
  have h := pathChunks_append_sep [] v
  simp only [List.nil_append] at h
  rw [h]
  rfl

theorem components_dedup_sep :
    ∀ u v : List Nat, components (u ++ 47 :: 47 :: v) = components (u ++ 47 :: v) := by
  intro u v
  unfold components
  have hc : pathChunks (u ++ 47 :: 47 :: v) = pathChunks (u ++ 47 :: v) := by
    rw [pathChunks_append_sep u (47 :: v), pathChunks_append_sep u v, pathChunks_cons_sep]
  have hh : (u ++ 47 :: 47 :: v).head? = (u ++ 47 :: v).head? := by
    cases u <;> simp
  rw [hc, hh]

theorem components_trailing_sep :
    ∀ pa : List Nat, pa ≠ [] → components (pa ++ [47]) = components pa := by
  intro pa hp
  unfold components
  have hc : pathChunks (pa ++ [47]) = pathChunks pa := by
    have h := pathChunks_append_sep pa []
    simpa [pathChunks, splitByteP] using h
  have hh : (pa ++ [47]).head? = pa.head? := by
    cases pa with
    | nil => exact absurd rfl hp
    | cons a l => simp
  rw [hc, hh]

/-- C5 counterexample: with one entry whose `dest` is `/run`, the query
`/run/` is byte-distinct from the stored destination, yet
`get_mount_by_dest` returns the entry — so matching is not exact byte
equality of paths. -/
theorem claim5_first_match_counterexample :
    get_mount_by_dest
        [⟨byteify "tmpfs", byteify "/run", byteify "tmpfs", [byteify "rw"], 0, 0⟩]
        (byteify "/run/") =
      some ⟨byteify "tmpfs", byteify "/run", byteify "tmpfs", [byteify "rw"], 0, 0⟩ ∧
      (MountInfo.dest ⟨byteify "tmpfs", byteify "/run", byteify "tmpfs", [byteify "rw"], 0, 0⟩) ≠
        byteify "/run/" := by
  refine ⟨by decide, by decide⟩

/-- C5 (amended): For every mount table and query path,
`get_mount_by_dest` returns the first entry in file order whose `dest`
equals the path under Rust `Path` equality (component-wise equality of the
byte paths, not byte-exact equality), and none when no entry so matches;
`get_mount_by_source` is the same property keyed on `source` — when several
entries match, the earliest in file order is returned. -/
theorem claim5_first_match_amended :
    ∀ (t : List MountInfo) (p : List Nat),
      (get_mount_by_dest t p = none ↔ ∀ m ∈ t, pathEq m.dest p = false) ∧
        (∀ m, get_mount_by_dest t p = some m →
          pathEq m.dest p = true ∧
            ∃ pre post, t = pre ++ m :: post ∧ ∀ x ∈ pre, pathEq x.dest p = false) ∧
        (get_mount_by_source t p = none ↔ ∀ m ∈ t, pathEq m.source p = false) ∧
        (∀ m, get_mount_by_source t p = some m →
          pathEq m.source p = true ∧
            ∃ pre post, t = pre ++ m :: post ∧ ∀ x ∈ pre, pathEq x.source p = false) := by
  intro t p
  refine ⟨?_, ?_, ?_, ?_⟩
  · rw [get_mount_by_dest, List.find?_eq_none]
    constructor
    · intro h m hm; simpa using h m hm
    · intro h m hm; simp [h m hm]
  · intro m hm
    exact find?_first_match _ t m hm
  · rw [get_mount_by_source, List.find?_eq_none]
    constructor
    · intro h m hm; simpa using h m hm
    · intro h m hm; simp [h m hm]
  · intro m hm
    exact find?_first_match _ t m hm

/-- Witness for the amended C5 at a concrete table: a one-entry table has no
match for an unrelated path, and the matching query returns the entry as
first match. -/
theorem claim5_first_match_amended_witness :
    get_mount_by_dest
        [⟨byteify "tmpfs", byteify "/run", byteify "tmpfs", [byteify "rw"], 0, 0⟩]
        (byteify "/none") = none := by
  exact (claim5_first_match_amended
      [⟨byteify "tmpfs", byteify "/run", byteify "tmpfs", [byteify "rw"], 0, 0⟩]
      (byteify "/none")).1.mpr (by decide)

/-- C10: The exact-match queries compare paths component-wise (Rust `Path`
equality), not byte-wise: appending a trailing separator to a non-empty path
or doubling an existing separator leaves its components unchanged, the
queries respect component equality of the query path, and concretely the
query `/run/` matches a stored dest `/run` and `/dev//sda5` matches a
swapped source `/dev/sda5`. -/
theorem claim10_component_equality :
    (∀ pa : List Nat, pa ≠ [] → components (pa ++ [47]) = components pa) ∧
      (∀ u v : List Nat, components (u ++ 47 :: 47 :: v) = components (u ++ 47 :: v)) ∧
      (∀ (t : List MountInfo) (p q : List Nat), components p = components q →
        get_mount_by_dest t p = get_mount_by_dest t q ∧
          get_mount_by_source t p = get_mount_by_source t q) ∧
      (∀ (s : List SwapInfo) (p q : List Nat), components p = components q →
        get_swapped s p = get_swapped s q) ∧
      get_mount_by_dest
          [⟨byteify "tmpfs", byteify "/run", byteify "tmpfs", [byteify "rw"], 0, 0⟩]
          (byteify "/run/") =
        some ⟨byteify "tmpfs", byteify "/run", byteify "tmpfs", [byteify "rw"], 0, 0⟩ ∧
      get_swapped [⟨byteify "/dev/sda5", byteify "partition", 8388600, 0, -2⟩]
          (byteify "/dev//sda5") = true := by
  refine ⟨components_trailing_sep, components_dedup_sep, ?_, ?_, by decide, by decide⟩
  · intro t p q h
    constructor
    · unfold get_mount_by_dest pathEq
      rw [h]
    · unfold get_mount_by_source pathEq
      rw [h]
  · intro s p q h
    unfold get_swapped pathEq
    rw [h]

/-- Witness for C10 at concrete inputs: the trailing-separator law applied
to `/x`, and query equality applied to a concrete one-entry table. -/
theorem claim10_component_equality_witness :
    components (byteify "/x" ++ [47]) = components (byteify "/x") ∧
      get_mount_by_dest
          [⟨byteify "a", byteify "/b", byteify "c", [byteify "d"], 0, 0⟩]
          (byteify "/b/") =
        get_mount_by_dest
          [⟨byteify "a", byteify "/b", byteify "c", [byteify "d"], 0, 0⟩]
          (byteify "/b") := by
  constructor
  · exact claim10_component_equality.1 (byteify "/x") (by decide)
  · exact (claim10_component_equality.2.2.1
      [⟨byteify "a", byteify "/b", byteify "c", [byteify "d"], 0, 0⟩]
      (byteify "/b/") (byteify "/b") (by decide)).1

theorem startsWithFilter_iff (p input : List Nat) :
    startsWithFilter p input = true ↔ input.take p.length = p := by
  unfold startsWithFilter
  constructor
  · intro h
    simp at h
    exact h.2
  · intro h
    have hlen : p.length ≤ input.length := by
      have hl := congrArg List.length h
      simp [List.length_take] at hl
      omega
    simp [h, hlen]

/-- C6: The prefix queries yield, in file order, exactly the entries whose
respective field's raw bytes begin with the raw bytes of the query path
(`input.take p.length = p`); the test is a pure byte test (`/a` counts
`/ab`'s destination as a match); and on the 8-line sample table
`destination_starts_with "/"` yields the destinations in the exact order
/sys, /proc, /dev, /run, /, /sys/fs/fuse/connections, /boot/efi,
/mnt/data. -/
theorem claim6_byte_prefix_queries :
    (∀ (t : List MountInfo) (p : List Nat),
        (destination_starts_with t p).Sublist t ∧
          (∀ m, m ∈ destination_starts_with t p ↔ m ∈ t ∧ m.dest.take p.length = p) ∧
          (source_starts_with t p).Sublist t ∧
          (∀ m, m ∈ source_starts_with t p ↔ m ∈ t ∧ m.source.take p.length = p)) ∧
      startsWithFilter (byteify "/a") (byteify "/ab") = true ∧
      (mountParseFrom sampleMountLines).map
          (fun t => (destination_starts_with t (byteify "/")).map (fun m => m.dest)) =
        .ok [byteify "/sys", byteify "/proc", byteify "/dev", byteify "/run", byteify "/",
             byteify "/sys/fs/fuse/connections", byteify "/boot/efi", byteify "/mnt/data"] := by
  refine ⟨?_, by decide, by decide⟩
  intro t p
  refine ⟨List.filter_sublist t, ?_, List.filter_sublist t, ?_⟩
  · intro m
    rw [destination_starts_with, List.mem_filter, startsWithFilter_iff]
  · intro m
    rw [source_starts_with, List.mem_filter, startsWithFilter_iff]

/-- Witness for C6 at a concrete table: the entry with dest `/ab` is yielded
by the prefix query for `/a`. -/
theorem claim6_byte_prefix_queries_witness :
    (⟨byteify "x", byteify "/ab", byteify "t", [byteify "rw"], 0, 0⟩ : MountInfo) ∈
      destination_starts_with
        [⟨byteify "x", byteify "/ab", byteify "t", [byteify "rw"], 0, 0⟩]
        (byteify "/a") := by
  exact ((claim6_byte_prefix_queries.1
      [⟨byteify "x", byteify "/ab", byteify "t", [byteify "rw"], 0, 0⟩]
      (byteify "/a")).2.1
      ⟨byteify "x", byteify "/ab", byteify "t", [byteify "rw"], 0, 0⟩).mpr
    ⟨by decide, by decide⟩

/-- C8 counterexample: the swap line `a b 1x \9 -2` has a malformed escape
in its fourth field (`\9`, whose decode error is the invalid-digit escape
error), yet the whole line fails with the numeric invalid-data error coming
from the third field `1x`, not with the escape-decoding error. -/
theorem claim8_decode_counterexample :
    swapParseLine (byteify "a b 1x \\9 -2") = .error swapInvalidDataErr ∧
      parse_value (byteify "\\9") = .error invalidDigitErr ∧
      swapInvalidDataErr ≠ invalidDigitErr ∧
      swapInvalidDataErr ≠ truncatedEscapeErr := by
  refine ⟨by decide, by decide, by decide, by decide⟩

/-- C8 (amended): In the swap line parser every field — the numeric fields
size, used and priority included — passes through the octal-escape decoder
before conversion: a size written `\070` parses as the number 8; a line
parses successfully only if all five fields decode; and a malformed escape
in a field makes the whole line fail with that field's escape-decoding
error provided every earlier field decodes (and, for numeric fields,
converts) successfully. -/
theorem claim8_decode_before_conversion :
    swapParseFrom [byteify "/dev/sda5 partition \\070 0 -2"] =
        .ok [⟨byteify "/dev/sda5", byteify "partition", 8, 0, -2⟩] ∧
      (∀ parts : List (List Nat), ∀ s, swapParseFields parts = .ok s →
        ∀ f ∈ parts.take 5, ∃ v, parse_value f = .ok v) ∧
      (∀ f1 r e, parse_value f1 = .error e → swapParseFields (f1 :: r) = .error e) ∧
      (∀ f1 f2 r v1 e, parse_value f1 = .ok v1 → parse_value f2 = .error e →
        swapParseFields (f1 :: f2 :: r) = .error e) ∧
      (∀ f1 f2 f3 r v1 v2 e, parse_value f1 = .ok v1 → parse_value f2 = .ok v2 →
        parse_value f3 = .error e → swapParseFields (f1 :: f2 :: f3 :: r) = .error e) ∧
      (∀ f1 f2 f3 f4 r v1 v2 v3 n3 e, parse_value f1 = .ok v1 → parse_value f2 = .ok v2 →
        parse_value f3 = .ok v3 → swapParseNat v3 = .ok n3 →
        parse_value f4 = .error e → swapParseFields (f1 :: f2 :: f3 :: f4 :: r) = .error e) ∧
      (∀ f1 f2 f3 f4 f5 r v1 v2 v3 n3 v4 n4 e, parse_value f1 = .ok v1 →
        parse_value f2 = .ok v2 → parse_value f3 = .ok v3 → swapParseNat v3 = .ok n3 →
        parse_value f4 = .ok v4 → swapParseNat v4 = .ok n4 →
        parse_value f5 = .error e →
        swapParseFields (f1 :: f2 :: f3 :: f4 :: f5 :: r) = .error e) := by
  refine ⟨by decide, ?_, ?_, ?_, ?_, ?_, ?_⟩
  · intro parts s h
    rcases parts with _ | ⟨p1, _ | ⟨p2, _ | ⟨p3, _ | ⟨p4, _ | ⟨p5, rest⟩⟩⟩⟩⟩
    · have hlen := swapParseFields_arity _ s h
      simp at hlen
    · have hlen := swapParseFields_arity _ s h
      simp at hlen
    · have hlen := swapParseFields_arity _ s h
      simp at hlen
    · have hlen := swapParseFields_arity _ s h
      simp at hlen
    · have hlen := swapParseFields_arity _ s h
      simp at hlen
    · rcases h1 : parse_value p1 with e | v1
      · simp [swapParseFields, h1] at h
      · rcases h2 : parse_value p2 with e | v2
        · simp [swapParseFields, h1, h2] at h
        · rcases h3 : parse_value p3 with e | v3
          · simp [swapParseFields, h1, h2, h3] at h
          · rcases h3n : swapParseNat v3 with e | n3
            · simp [swapParseFields, h1, h2, h3, h3n] at h
            · rcases h4 : parse_value p4 with e | v4
              · simp [swapParseFields, h1, h2, h3, h3n, h4] at h
              · rcases h4n : swapParseNat v4 with e | n4
                · simp [swapParseFields, h1, h2, h3, h3n, h4, h4n] at h
                · rcases h5 : parse_value p5 with e | v5
                  · simp [swapParseFields, h1, h2, h3, h3n, h4, h4n, h5] at h
                  · intro f hf
                    simp [List.take] at hf
                    rcases hf with rfl | rfl | rfl | rfl | rfl
                    · exact ⟨v1, h1⟩
                    · exact ⟨v2, h2⟩
                    · exact ⟨v3, h3⟩
                    · exact ⟨v4, h4⟩
                    · exact ⟨v5, h5⟩
  · intro f1 r e h1
    simp [swapParseFields, h1]
  · intro f1 f2 r v1 e h1 h2
    simp [swapParseFields, h1, h2]
  · intro f1 f2 f3 r v1 v2 e h1 h2 h3
    simp [swapParseFields, h1, h2, h3]
  · intro f1 f2 f3 f4 r v1 v2 v3 n3 e h1 h2 h3 h3n h4
    simp [swapParseFields, h1, h2, h3, h3n, h4]
  · intro f1 f2 f3 f4 f5 r v1 v2 v3 n3 v4 n4 e h1 h2 h3 h3n h4 h4n h5
    simp [swapParseFields, h1, h2, h3, h3n, h4, h4n, h5]

/-- Witness for the amended C8 at concrete inputs: a malformed escape in the
first field surfaces as the line's error. -/
theorem claim8_decode_before_conversion_witness :
    swapParseFields [byteify "\\9"] = .error invalidDigitErr := by
  exact claim8_decode_before_conversion.2.2.1 (byteify "\\9") [] invalidDigitErr (by decide)

end ProcMounts
